import Mathlib

/-!
# Verification of `web_to_pdf_converter.py`

A shallow embedding of the two-stage web-to-PDF pipeline:

* `download_page_as_pdf` (Page Fetcher) writes one PDF file per URL, or raises;
* `merge_pdfs_by_creation_time` (Merge Stage) scans a directory for `*.pdf`
  entries, sorts them by filesystem creation time, appends each (skipping
  files whose append raises) and writes the merged output;
* `main` (Driver) creates the download directory, runs the fetch loop with a
  per-URL `try/except`, then merges when two or more fetches succeeded.

Files are modelled as entries `⟨name, ctime, content, appendOk⟩` where
`content` is the abstract list of page identifiers the file holds and
`appendOk` records whether the external PDF library can append the file
without raising.  A directory is a list of such entries.  The outside world
(which fetches fail, whether `mkdir` or the final output `open`/`write`
raises) is an explicit environment `Env`; an uncaught Python exception is an
`Except.error`, and the process exit status is `1` exactly when the
exception escapes `asyncio.run(main())`.
-/

/-- Decimal digit characters of `n`, most significant first.  The first
argument is recursion fuel; any fuel `> n` computes the digits, since the
quotient `n / 10` strictly decreases at each step. -/
def decAux : Nat → Nat → List Char
  | 0, _ => []
  | fuel + 1, n =>
    if n < 10 then [Nat.digitChar n]
    else decAux fuel (n / 10) ++ [Nat.digitChar (n % 10)]

/-- Python's `str(n)` for a natural number `n` (most-significant digit
first, no sign, no padding). -/
def natToDec (n : Nat) : String := ⟨decAux (n + 1) n⟩

/-- Numeric value of a decimal digit character (used to read a digit string
back; inverse of `Nat.digitChar` on digits). -/
def charVal (c : Char) : Nat := c.toNat - 48

/-- Numeric value of a most-significant-digit-first decimal string. -/
def decVal (l : List Char) : Nat := l.foldl (fun a c => 10 * a + charVal c) 0

/-- A file on disk: its name (within the download directory), its filesystem
creation time (`os.path.getctime`), its abstract content (the list of page
identifiers it holds) and whether the PDF library can append it without
raising. -/
structure FileEntry where
  name : String
  ctime : Nat
  content : List Nat
  appendOk : Bool
deriving DecidableEq, Repr

/-- A directory is its (non-recursive) list of entries. -/
abbrev Dir := List FileEntry

/-- Whether a file name matches the glob pattern `*.pdf`: `*` matches any
(possibly empty) character sequence, so the pattern matches exactly the
names ending in `.pdf`. -/
def isPdfName (s : String) : Bool := decide (".pdf".data <:+ s.data)

/-- Writing a file at `name` inside a directory: an existing entry of that
name is overwritten in place, otherwise the entry is appended. -/
def writeEntry (dir : Dir) (e : FileEntry) : Dir :=
  if dir.any (fun f => f.name == e.name) then
    dir.map (fun f => if f.name == e.name then e else f)
  else dir ++ [e]

/-- The sort key of `merge_pdfs_by_creation_time`: creation time, ascending
(`sorted(..., key=lambda f: os.path.getctime(f))`). -/
def ctimeLe (a b : FileEntry) : Prop := a.ctime ≤ b.ctime

instance : DecidableRel ctimeLe := fun a b => Nat.decLe a.ctime b.ctime

instance : IsTotal FileEntry ctimeLe := ⟨fun a b => Nat.le_total a.ctime b.ctime⟩

instance : IsTrans FileEntry ctimeLe := ⟨fun _ _ _ => Nat.le_trans⟩

/-- Step 1 of `merge_pdfs_by_creation_time`:
`sorted(directory.glob("*.pdf"), key=lambda f: os.path.getctime(f))`.
`Path.glob` is non-recursive and `sorted` is a stable sort by the key, which
`List.insertionSort` with the reflexive key order reproduces exactly. -/
def pdf_files (dir : Dir) : List FileEntry :=
  List.insertionSort ctimeLe (dir.filter (fun f => isPdfName f.name))

/-- Step 3 of `merge_pdfs_by_creation_time`: the `for pdf in pdf_files` loop.
Each file is appended to the merger's accumulated content; a file whose
append raises is caught, an error line is recorded, and the loop continues.
Returns the merger's final content and the error log. -/
def appendLoop (files : List FileEntry) : List Nat × List String :=
  files.foldl
    (fun acc f =>
      if f.appendOk then (acc.1 ++ f.content, acc.2)
      else (acc.1, acc.2 ++ ["[ERROR] Could not merge " ++ f.name]))
    ([], [])

/-- Concatenation of the contents of a list of files, in list order (what
the merger holds after appending each of them in order). -/
def concatContents : List FileEntry → List Nat
  | [] => []
  | f :: fs => f.content ++ concatContents fs

/-- What a run of `merge_pdfs_by_creation_time` did. -/
structure MergeResult where
  /-- `True` iff the output file was written (the early `return` for an empty
  match list skips the write). -/
  wrote : Bool
  /-- The sorted input list the loop iterated over. -/
  inputs : List FileEntry
  /-- Content written to `directory / output_filename` (meaningful when
  `wrote = true`). -/
  outputContent : List Nat
  /-- The `[ERROR] Could not merge ...` lines printed by the loop. -/
  errors : List String
  /-- The directory after the call. -/
  newDir : Dir
deriving DecidableEq, Repr

/-- `merge_pdfs_by_creation_time(directory, output_filename)`.  `now` is the
creation time the filesystem stamps on the merged output file; `writeOk`
says whether `open(output_path, "wb")`/`merger.write` succeeds — that write
is not under any `try`, so its failure is an uncaught exception
(`Except.error`). -/
def merge_pdfs_by_creation_time (dir : Dir) (output_filename : String)
    (now : Nat) (writeOk : Bool) : Except String MergeResult :=
  let files := pdf_files dir
  if files.isEmpty then
    Except.ok ⟨false, files, [], [], dir⟩
  else
    let res := appendLoop files
    if writeOk then
      Except.ok ⟨true, files, res.1, res.2,
        writeEntry dir ⟨output_filename, now, res.1, true⟩⟩
    else Except.error "could not write merged output"

-- --- CONFIGURATION (module-level constants of the script) ---

/-- `URLS_TO_DOWNLOAD`. -/
def URLS_TO_DOWNLOAD : List String :=
  ["https://www.google.com/",
   "https://en.wikipedia.org/wiki/Python_(programming_language)",
   "https://example.com/"]

/-- `DOWNLOAD_DIRECTORY`. -/
def DOWNLOAD_DIRECTORY : String := "downloaded_pdfs"

/-- `MERGED_FILENAME`. -/
def MERGED_FILENAME : String := "combined_report.pdf"

/-- The filename the driver derives for the target at 0-based index `i`:
`f"page_{i+1}.pdf"`. -/
def page_filename (i : Nat) : String :=
  "page_" ++ natToDec (i + 1) ++ ".pdf"

/-- The full path the driver passes to the Fetcher for index `i`:
`DOWNLOAD_DIRECTORY / filename`. -/
def page_filepath (i : Nat) : String :=
  DOWNLOAD_DIRECTORY ++ "/" ++ page_filename i

/-- The path the Merge Stage writes: `directory / output_filename`. -/
def output_path (directory output_filename : String) : String :=
  directory ++ "/" ++ output_filename

/-- The outside world for one run: the configured URL list, the initial
directory contents, and which externally-performed operations succeed. -/
structure Env where
  /-- The configured target list (`URLS_TO_DOWNLOAD`). -/
  urls : List String
  /-- Contents of the download directory before the run. -/
  dir0 : Dir
  /-- Whether `DOWNLOAD_DIRECTORY.mkdir(exist_ok=True)` succeeds. -/
  mkdirOk : Bool
  /-- Whether the fetch of the target at 0-based index `i` succeeds
  (navigation, the pause, and the PDF export). -/
  fetchOk : Nat → Bool
  /-- Whether the PDF file produced by fetch `i` can later be appended by the
  merge library without raising. -/
  appendOkF : Nat → Bool
  /-- Whether `open(output_path, "wb")`/`merger.write` succeeds. -/
  mergeWriteOk : Bool
  /-- Filesystem clock: creation time stamped on the file of fetch `i` is
  `baseTime + i` (fetches are strictly sequential). -/
  baseTime : Nat

/-- The file written by a successful fetch of target `i`: name
`page_{i+1}.pdf`, creation time in fetch order, content the single rendered
page (identified by its target index). -/
def fetchedEntry (env : Env) (i : Nat) : FileEntry :=
  ⟨page_filename i, env.baseTime + i, [i], env.appendOkF i⟩

/-- One iteration of the driver's `for i, url in enumerate(URLS_TO_DOWNLOAD)`
loop over the state (directory, `downloaded_paths`): on success
`download_page_as_pdf` writes the file and the path is appended to
`downloaded_paths`; on failure the exception is caught, the error is logged
and the loop continues with the state unchanged. -/
def fetchStep (env : Env) (st : Dir × List String) (i : Nat) : Dir × List String :=
  if env.fetchOk i then
    (writeEntry st.1 (fetchedEntry env i), st.2 ++ [page_filename i])
  else st

/-- The driver's whole fetch loop, starting from the initial directory and an
empty `downloaded_paths`. -/
def fetchLoop (env : Env) : Dir × List String :=
  (List.range env.urls.length).foldl (fetchStep env) (env.dir0, [])

/-- The number of fetches that succeeded in the run. -/
def countSucc (env : Env) : Nat :=
  ((List.range env.urls.length).filter env.fetchOk).length

/-- What a completed run of `main` did. -/
structure RunResult where
  /-- Whether the driver called `merge_pdfs_by_creation_time`. -/
  mergeInvoked : Bool
  /-- `downloaded_paths` (file names) after the loop. -/
  downloaded : List String
  /-- The download directory at the end of the run. -/
  finalDir : Dir
  /-- The final summary line the driver prints. -/
  summary : String
deriving DecidableEq, Repr

namespace Script

/-- `main()`.  `mkdir` and the merge call are not under any `try`, so their
failures escape as `Except.error`; per-URL fetch failures are caught inside
the loop. -/
def main (env : Env) : Except String RunResult :=
  if env.mkdirOk then
    if (fetchLoop env).2.length > 1 then
      match merge_pdfs_by_creation_time (fetchLoop env).1 MERGED_FILENAME
          (env.baseTime + env.urls.length) env.mergeWriteOk with
      | Except.ok mr =>
          Except.ok ⟨true, (fetchLoop env).2, mr.newDir,
            "Merging completed. Final file saved at: " ++
              output_path DOWNLOAD_DIRECTORY MERGED_FILENAME⟩
      | Except.error e => Except.error e
    else if (fetchLoop env).2.length == 1 then
      Except.ok ⟨false, (fetchLoop env).2, (fetchLoop env).1,
        "Only one PDF was downloaded. No merging required: " ++ (fetchLoop env).2.headD ""⟩
    else
      Except.ok ⟨false, (fetchLoop env).2, (fetchLoop env).1,
        "No files were successfully downloaded."⟩
  else Except.error "mkdir failed"

/-- The process exit status of `asyncio.run(main())`: `0` when `main`
returns, `1` when an exception escapes (Python's exit status for an
unhandled exception). -/
def run (env : Env) : Nat :=
  match main env with
  | Except.ok _ => 0
  | Except.error _ => 1

end Script

/-! ## Decimal rendering: round trip and injectivity -/

lemma decVal_append_singleton (l : List Char) (c : Char) :
    decVal (l ++ [c]) = 10 * decVal l + charVal c := by
  simp [decVal, List.foldl_append]

lemma charVal_digitChar : ∀ m, m < 10 → charVal (Nat.digitChar m) = m := by decide

lemma decVal_decAux : ∀ fuel n, n < fuel → decVal (decAux fuel n) = n := by
  intro fuel
  induction fuel with
  | zero => intro n h; omega
  | succ fuel ih =>
    intro n h
    simp only [decAux]
    by_cases h10 : n < 10
    · rw [if_pos h10]
      simp [decVal, charVal_digitChar n h10]
    · rw [if_neg h10]
      rw [decVal_append_singleton]
      have hdiv : n / 10 < fuel := by
        have hlt : n / 10 < n := Nat.div_lt_self (by omega) (by omega)
        omega
      rw [ih (n / 10) hdiv, charVal_digitChar (n % 10) (Nat.mod_lt n (by omega))]
      omega

lemma natToDec_injective {a b : Nat} (h : natToDec a = natToDec b) : a = b := by
  have hd : decAux (a + 1) a = decAux (b + 1) b := congrArg String.data h
  have ha := decVal_decAux (a + 1) a (by omega)
  have hb := decVal_decAux (b + 1) b (by omega)
  rw [← ha, ← hb, hd]

lemma page_filename_injective {i j : Nat} (h : page_filename i = page_filename j) :
    i = j := by
  have hd := congrArg String.data h
  simp only [page_filename, String.data_append] at hd
  have h1 := List.append_cancel_right hd
  have h2 := List.append_cancel_left h1
  have h3 : decAux (i + 1 + 1) (i + 1) = decAux (j + 1 + 1) (j + 1) := h2
  have ha := decVal_decAux (i + 1 + 1) (i + 1) (by omega)
  have hb := decVal_decAux (j + 1 + 1) (j + 1) (by omega)
  rw [h3, hb] at ha
  omega

lemma isPdfName_page_filename (i : Nat) : isPdfName (page_filename i) = true := by
  simp only [isPdfName, page_filename, String.data_append, decide_eq_true_eq]
  exact List.suffix_append _ _

lemma page_filename_ne_merged (i : Nat) : page_filename i ≠ MERGED_FILENAME := by
  intro h
  have hd := congrArg String.data h
  simp only [page_filename, MERGED_FILENAME, String.data_append] at hd
  rw [List.append_assoc] at hd
  simp only [List.cons_append] at hd
  injection hd with h1 _
  exact absurd h1 (by decide)

/-! ## `writeEntry`: filesystem frame lemmas -/

lemma writeEntry_of_fresh {dir : Dir} {e : FileEntry}
    (h : ∀ f ∈ dir, f.name ≠ e.name) : writeEntry dir e = dir ++ [e] := by
  have hany : dir.any (fun f => f.name == e.name) = false := by
    simp only [List.any_eq_false, beq_iff_eq]
    exact h
  unfold writeEntry
  rw [hany]
  simp

lemma self_mem_writeEntry (dir : Dir) (e : FileEntry) : e ∈ writeEntry dir e := by
  unfold writeEntry
  by_cases h : dir.any (fun f => f.name == e.name) = true
  · rw [if_pos h]
    obtain ⟨f, hf, hfe⟩ := List.any_eq_true.mp h
    have heq : (if f.name == e.name then e else f) = e := if_pos hfe
    exact List.mem_map.mpr ⟨f, hf, heq⟩
  · rw [if_neg h]
    exact List.mem_append_right _ (List.mem_singleton_self e)

lemma mem_writeEntry {dir : Dir} {e g : FileEntry} (h : g ∈ writeEntry dir e) :
    g = e ∨ g ∈ dir := by
  unfold writeEntry at h
  by_cases hc : dir.any (fun f => f.name == e.name) = true
  · rw [if_pos hc] at h
    obtain ⟨f, hf, hfg⟩ := List.mem_map.mp h
    by_cases hfe : (f.name == e.name) = true
    · rw [if_pos hfe] at hfg
      exact Or.inl hfg.symm
    · rw [if_neg hfe] at hfg
      exact Or.inr (hfg ▸ hf)
  · rw [if_neg hc] at h
    rcases List.mem_append.mp h with h1 | h1
    · exact Or.inr h1
    · exact Or.inl (List.mem_singleton.mp h1)

lemma mem_writeEntry_of_ne {dir : Dir} {e f : FileEntry} (hf : f ∈ dir)
    (hne : f.name ≠ e.name) : f ∈ writeEntry dir e := by
  unfold writeEntry
  by_cases hc : dir.any (fun g => g.name == e.name) = true
  · rw [if_pos hc]
    have heq : (if f.name == e.name then e else f) = f := by
      rw [if_neg]
      simpa using hne
    exact List.mem_map.mpr ⟨f, hf, heq⟩
  · rw [if_neg hc]
    exact List.mem_append_left _ hf

/-! ## The merge append loop -/

lemma concatContents_append (a b : List FileEntry) :
    concatContents (a ++ b) = concatContents a ++ concatContents b := by
  induction a with
  | nil => simp [concatContents]
  | cons f fs ih => simp [concatContents, ih]

lemma mem_concatContents {p : Nat} {fs : List FileEntry} :
    p ∈ concatContents fs ↔ ∃ f ∈ fs, p ∈ f.content := by
  induction fs with
  | nil => simp [concatContents]
  | cons f fs ih => simp [concatContents, List.mem_append, ih]

lemma foldl_appendLoop (files : List FileEntry) : ∀ (c : List Nat) (log : List String),
    files.foldl
      (fun acc f =>
        if f.appendOk then (acc.1 ++ f.content, acc.2)
        else (acc.1, acc.2 ++ ["[ERROR] Could not merge " ++ f.name]))
      (c, log) =
    (c ++ concatContents (files.filter (fun f => f.appendOk)),
     log ++ (files.filter (fun f => !f.appendOk)).map
       (fun f => "[ERROR] Could not merge " ++ f.name)) := by
  induction files with
  | nil => intro c log; simp [concatContents]
  | cons f fs ih =>
    intro c log
    by_cases hf : f.appendOk = true
    · simp only [List.foldl_cons, if_pos hf, ih,
        List.filter_cons_of_pos hf, concatContents]
      rw [List.filter_cons_of_neg (by simp [hf])]
      simp [List.append_assoc]
    · have hf2 : (!f.appendOk) = true := by simp [Bool.eq_false_iff.mpr hf]
      simp only [List.foldl_cons, if_neg hf, ih, List.filter_cons_of_neg hf]
      rw [List.filter_cons_of_pos (p := fun g : FileEntry => !g.appendOk) hf2, List.map_cons]
      simp [List.append_assoc]

lemma appendLoop_eq (files : List FileEntry) :
    appendLoop files =
      (concatContents (files.filter (fun f => f.appendOk)),
       (files.filter (fun f => !f.appendOk)).map
         (fun f => "[ERROR] Could not merge " ++ f.name)) := by
  simpa using foldl_appendLoop files [] []

/-! ## The directory scan and sort -/

lemma pdf_files_perm (dir : Dir) :
    (pdf_files dir).Perm (dir.filter (fun f => isPdfName f.name)) :=
  List.perm_insertionSort _ _

lemma pdf_files_sorted (dir : Dir) :
    List.Pairwise (fun a b : FileEntry => a.ctime ≤ b.ctime) (pdf_files dir) :=
  List.sorted_insertionSort ctimeLe _

lemma mem_pdf_files {dir : Dir} {f : FileEntry} :
    f ∈ pdf_files dir ↔ f ∈ dir ∧ isPdfName f.name = true := by
  unfold pdf_files
  rw [List.mem_insertionSort, List.mem_filter]

lemma pdf_files_eq_nil_iff {dir : Dir} :
    pdf_files dir = [] ↔ dir.filter (fun f => isPdfName f.name) = [] := by
  constructor <;> intro h
  · have hp := pdf_files_perm dir
    rw [h] at hp
    exact hp.symm.eq_nil
  · unfold pdf_files
    rw [h]
    rfl

/-! ## Shape of a `merge_pdfs_by_creation_time` call -/

lemma merge_eq_of_nil {dir : Dir} (ofn : String) (now : Nat) (writeOk : Bool)
    (h : pdf_files dir = []) :
    merge_pdfs_by_creation_time dir ofn now writeOk =
      Except.ok ⟨false, pdf_files dir, [], [], dir⟩ := by
  have hI : (pdf_files dir).isEmpty = true := by rw [h]; rfl
  simp [merge_pdfs_by_creation_time, hI]

lemma merge_eq_of_nonempty {dir : Dir} (ofn : String) (now : Nat)
    (h : pdf_files dir ≠ []) :
    merge_pdfs_by_creation_time dir ofn now true =
      Except.ok ⟨true, pdf_files dir, (appendLoop (pdf_files dir)).1,
        (appendLoop (pdf_files dir)).2,
        writeEntry dir ⟨ofn, now, (appendLoop (pdf_files dir)).1, true⟩⟩ := by
  have hI : (pdf_files dir).isEmpty = false := by
    cases hp : pdf_files dir with
    | nil => exact absurd hp h
    | cons a l => rfl
  simp [merge_pdfs_by_creation_time, hI]

lemma merge_ok_of_writeOk (dir : Dir) (ofn : String) (now : Nat) :
    ∃ mr, merge_pdfs_by_creation_time dir ofn now true = Except.ok mr := by
  by_cases h : pdf_files dir = []
  · exact ⟨_, merge_eq_of_nil ofn now true h⟩
  · exact ⟨_, merge_eq_of_nonempty ofn now h⟩

/-! ## Shape of the driver's fetch loop -/

lemma foldl_fetchStep_snd (env : Env) : ∀ (L : List Nat) (d : Dir) (ds : List String),
    (L.foldl (fetchStep env) (d, ds)).2 = ds ++ (L.filter env.fetchOk).map page_filename := by
  intro L
  induction L with
  | nil => intro d ds; simp
  | cons j L ih =>
    intro d ds
    simp only [List.foldl_cons, fetchStep]
    by_cases hj : env.fetchOk j = true
    · rw [if_pos hj, ih, List.filter_cons_of_pos hj, List.map_cons]
      simp [List.append_assoc]
    · rw [if_neg hj, ih, List.filter_cons_of_neg hj]

lemma fetchLoop_snd (env : Env) :
    (fetchLoop env).2 = ((List.range env.urls.length).filter env.fetchOk).map page_filename := by
  simpa using foldl_fetchStep_snd env (List.range env.urls.length) env.dir0 []

lemma fetchLoop_len (env : Env) : (fetchLoop env).2.length = countSucc env := by
  rw [fetchLoop_snd]
  simp [countSucc]

lemma foldl_fetchStep_none (env : Env) : ∀ (L : List Nat) (d : Dir) (ds : List String),
    (∀ i ∈ L, env.fetchOk i = false) → L.foldl (fetchStep env) (d, ds) = (d, ds) := by
  intro L
  induction L with
  | nil => intro d ds _; rfl
  | cons j L ih =>
    intro d ds h
    simp only [List.foldl_cons, fetchStep]
    rw [if_neg (by simp [h j (List.mem_cons_self j L)])]
    exact ih d ds (fun i hi => h i (List.mem_cons_of_mem j hi))

lemma foldl_fetchStep_fst (env : Env) : ∀ (L : List Nat) (d : Dir) (ds : List String),
    (∀ i ∈ L, ∀ f ∈ d, f.name ≠ page_filename i) → L.Nodup →
    (L.foldl (fetchStep env) (d, ds)).1 = d ++ (L.filter env.fetchOk).map (fetchedEntry env) := by
  intro L
  induction L with
  | nil => intro d ds _ _; simp
  | cons j L ih =>
    intro d ds hfree hnd
    rcases List.nodup_cons.mp hnd with ⟨hjL, hndL⟩
    simp only [List.foldl_cons, fetchStep]
    by_cases hj : env.fetchOk j = true
    · rw [if_pos hj]
      have hw : writeEntry d (fetchedEntry env j) = d ++ [fetchedEntry env j] :=
        writeEntry_of_fresh (fun f hf => hfree j (List.mem_cons_self j L) f hf)
      rw [hw]
      rw [ih (d ++ [fetchedEntry env j]) (ds ++ [page_filename j]) ?fresh hndL]
      · rw [List.filter_cons_of_pos hj, List.map_cons]
        simp [List.append_assoc]
      case fresh =>
        intro i hi f hf
        rcases List.mem_append.mp hf with h1 | h1
        · exact hfree i (List.mem_cons_of_mem j hi) f h1
        · have hfe : f = fetchedEntry env j := List.mem_singleton.mp h1
          rw [hfe]
          show page_filename j ≠ page_filename i
          intro he
          exact hjL (page_filename_injective he ▸ hi)
    · rw [if_neg hj, ih d ds (fun i hi => hfree i (List.mem_cons_of_mem j hi)) hndL,
        List.filter_cons_of_neg hj]

lemma fetchLoop_fst (env : Env) (h : ∀ f ∈ env.dir0, isPdfName f.name = false) :
    (fetchLoop env).1 =
      env.dir0 ++ ((List.range env.urls.length).filter env.fetchOk).map (fetchedEntry env) := by
  apply foldl_fetchStep_fst
  · intro i _ f hf he
    have h1 := h f hf
    rw [he, isPdfName_page_filename] at h1
    simp at h1
  · exact List.nodup_range env.urls.length

/-! ## The driver: characterization of a run whose fatal operations succeed -/

lemma main_spec (env : Env) (hm : env.mkdirOk = true) (hw : env.mergeWriteOk = true) :
    ∃ r, Script.main env = Except.ok r ∧
      r.downloaded = (fetchLoop env).2 ∧
      (r.mergeInvoked = true ↔ 1 < countSucc env) ∧
      (1 < countSucc env →
        ∃ mr, merge_pdfs_by_creation_time (fetchLoop env).1 MERGED_FILENAME
            (env.baseTime + env.urls.length) true = Except.ok mr ∧
          r.finalDir = mr.newDir) ∧
      (countSucc env ≤ 1 → r.finalDir = (fetchLoop env).1) ∧
      (countSucc env = 1 →
        r.summary = "Only one PDF was downloaded. No merging required: " ++
          (fetchLoop env).2.headD "") ∧
      (countSucc env = 0 → r.summary = "No files were successfully downloaded.") := by
  have hlen := fetchLoop_len env
  rcases Nat.lt_or_ge 1 (countSucc env) with hc | hc
  · have hgt : (fetchLoop env).2.length > 1 := by omega
    obtain ⟨mr, hmr⟩ :=
      merge_ok_of_writeOk (fetchLoop env).1 MERGED_FILENAME (env.baseTime + env.urls.length)
    have hmain : Script.main env =
        Except.ok ⟨true, (fetchLoop env).2, mr.newDir,
          "Merging completed. Final file saved at: " ++
            output_path DOWNLOAD_DIRECTORY MERGED_FILENAME⟩ := by
      unfold Script.main
      rw [if_pos hm, if_pos hgt, hw, hmr]
    exact ⟨_, hmain, rfl, by simpa using hc, fun _ => ⟨mr, hmr, rfl⟩,
      fun h1 => absurd h1 (by omega), fun h1 => absurd h1 (by omega),
      fun h0 => absurd h0 (by omega)⟩
  · have hngt : ¬((fetchLoop env).2.length > 1) := by omega
    rcases Nat.eq_or_lt_of_le hc with hc1 | hc0
    · have he1 : ((fetchLoop env).2.length == 1) = true := by
        rw [hlen]
        simp [hc1.symm]
      have hmain : Script.main env =
          Except.ok ⟨false, (fetchLoop env).2, (fetchLoop env).1,
            "Only one PDF was downloaded. No merging required: " ++
              (fetchLoop env).2.headD ""⟩ := by
        unfold Script.main
        rw [if_pos hm, if_neg hngt, if_pos he1]
      exact ⟨_, hmain, rfl, by simp; omega, fun h2 => absurd h2 (by omega),
        fun _ => rfl, fun _ => rfl, fun h0 => absurd h0 (by omega)⟩
    · have hc0' : countSucc env = 0 := by omega
      have he1 : ¬(((fetchLoop env).2.length == 1) = true) := by
        rw [hlen]
        simp
        omega
      have hmain : Script.main env =
          Except.ok ⟨false, (fetchLoop env).2, (fetchLoop env).1,
            "No files were successfully downloaded."⟩ := by
        unfold Script.main
        rw [if_pos hm, if_neg hngt, if_neg he1]
      exact ⟨_, hmain, rfl, by simp; omega, fun h2 => absurd h2 (by omega),
        fun _ => rfl, fun h1 => absurd h1 (by omega), fun _ => rfl⟩

/-! ## Claims about the Merge Stage -/

/-- C2: for every directory passed to the merge operation, the list of input
files it appends is exactly the non-recursive entries of that directory
matching the `.pdf` extension, sorted by filesystem creation timestamp in
ascending order, and the merged output concatenates them in that sorted
order (stated for appendable files, so every append succeeds). -/
theorem c2_merge_inputs_sorted_and_concatenated (dir : Dir) (ofn : String) (now : Nat)
    (hne : dir.filter (fun f => isPdfName f.name) ≠ [])
    (hall : ∀ f ∈ dir, f.appendOk = true) :
    ∃ mr, merge_pdfs_by_creation_time dir ofn now true = Except.ok mr ∧
      mr.inputs.Perm (dir.filter (fun f => isPdfName f.name)) ∧
      List.Pairwise (fun a b : FileEntry => a.ctime ≤ b.ctime) mr.inputs ∧
      mr.outputContent = concatContents mr.inputs := by
  have hne2 : pdf_files dir ≠ [] := fun h => hne (pdf_files_eq_nil_iff.mp h)
  refine ⟨_, merge_eq_of_nonempty ofn now hne2, pdf_files_perm dir, pdf_files_sorted dir, ?_⟩
  have hfl : (pdf_files dir).filter (fun f => f.appendOk) = pdf_files dir := by
    apply List.filter_eq_self.mpr
    intro f hf
    exact hall f (mem_pdf_files.mp hf).1
  show (appendLoop (pdf_files dir)).1 = concatContents (pdf_files dir)
  rw [appendLoop_eq, hfl]

/-- Witness for C2 at a concrete two-file directory (files listed out of
creation order, one name not matching `*.pdf`). -/
theorem c2_witness :
    (([⟨"b.pdf", 5, [1], true⟩, ⟨"a.pdf", 3, [0], true⟩, ⟨"c.txt", 1, [9], true⟩] : Dir).filter
        (fun f => isPdfName f.name) ≠ []) ∧
    (∀ f ∈ ([⟨"b.pdf", 5, [1], true⟩, ⟨"a.pdf", 3, [0], true⟩, ⟨"c.txt", 1, [9], true⟩] : Dir),
      f.appendOk = true) ∧
    ∃ mr, merge_pdfs_by_creation_time
        [⟨"b.pdf", 5, [1], true⟩, ⟨"a.pdf", 3, [0], true⟩, ⟨"c.txt", 1, [9], true⟩]
        "combined_report.pdf" 9 true = Except.ok mr ∧
      mr.inputs.Perm
        (([⟨"b.pdf", 5, [1], true⟩, ⟨"a.pdf", 3, [0], true⟩, ⟨"c.txt", 1, [9], true⟩] : Dir).filter
          (fun f => isPdfName f.name)) ∧
      List.Pairwise (fun a b : FileEntry => a.ctime ≤ b.ctime) mr.inputs ∧
      mr.outputContent = concatContents mr.inputs :=
  ⟨by decide, by decide,
   c2_merge_inputs_sorted_and_concatenated _ "combined_report.pdf" 9 (by decide) (by decide)⟩

/-- C5: every input file in the merge stage's sorted list that fails to
append is logged and skipped, and the merge continues with the remaining
files, writing a partial merged output instead of failing. -/
theorem c5_merge_skips_failing_appends (dir : Dir) (ofn : String) (now : Nat)
    (g : FileEntry) (hg : g ∈ pdf_files dir) (hbad : g.appendOk = false) :
    ∃ mr, merge_pdfs_by_creation_time dir ofn now true = Except.ok mr ∧
      mr.wrote = true ∧
      ("[ERROR] Could not merge " ++ g.name) ∈ mr.errors ∧
      mr.outputContent =
        concatContents ((pdf_files dir).filter (fun f => f.appendOk)) := by
  have hne : pdf_files dir ≠ [] := by
    intro h
    rw [h] at hg
    exact absurd hg (List.not_mem_nil g)
  refine ⟨_, merge_eq_of_nonempty ofn now hne, rfl, ?_, ?_⟩
  · show ("[ERROR] Could not merge " ++ g.name) ∈ (appendLoop (pdf_files dir)).2
    rw [appendLoop_eq]
    exact List.mem_map.mpr ⟨g, List.mem_filter.mpr ⟨hg, by simp [hbad]⟩, rfl⟩
  · show (appendLoop (pdf_files dir)).1 =
      concatContents ((pdf_files dir).filter (fun f => f.appendOk))
    rw [appendLoop_eq]

/-- Witness for C5: a two-file directory whose earlier-created file cannot be
appended; the merge still writes, logs the error, and outputs the other
file's content. -/
theorem c5_witness :
    (⟨"a.pdf", 3, [0], false⟩ : FileEntry) ∈
      pdf_files [⟨"b.pdf", 5, [1], true⟩, ⟨"a.pdf", 3, [0], false⟩] ∧
    (⟨"a.pdf", 3, [0], false⟩ : FileEntry).appendOk = false ∧
    ∃ mr, merge_pdfs_by_creation_time
        [⟨"b.pdf", 5, [1], true⟩, ⟨"a.pdf", 3, [0], false⟩] "combined_report.pdf" 9 true =
        Except.ok mr ∧
      mr.wrote = true ∧
      ("[ERROR] Could not merge " ++ "a.pdf") ∈ mr.errors ∧
      mr.outputContent =
        concatContents ((pdf_files [⟨"b.pdf", 5, [1], true⟩, ⟨"a.pdf", 3, [0], false⟩]).filter
          (fun f => f.appendOk)) :=
  ⟨by decide, rfl,
   c5_merge_skips_failing_appends [⟨"b.pdf", 5, [1], true⟩, ⟨"a.pdf", 3, [0], false⟩]
     "combined_report.pdf" 9 ⟨"a.pdf", 3, [0], false⟩ (by decide) rfl⟩

/-- C6: if the directory scan matches zero PDF files, the merge operation is
a no-op: it does not raise even when the output write would fail, it writes
nothing, and the directory is unchanged. -/
theorem c6_merge_noop_when_no_pdfs (dir : Dir) (ofn : String) (now : Nat) (writeOk : Bool)
    (h : dir.filter (fun f => isPdfName f.name) = []) :
    merge_pdfs_by_creation_time dir ofn now writeOk =
      Except.ok ⟨false, [], [], [], dir⟩ := by
  have h2 : pdf_files dir = [] := pdf_files_eq_nil_iff.mpr h
  rw [merge_eq_of_nil ofn now writeOk h2, h2]

/-- Witness for C6: a directory holding only a non-PDF entry. -/
theorem c6_witness :
    (([⟨"c.txt", 1, [9], true⟩] : Dir).filter (fun f => isPdfName f.name) = []) ∧
    merge_pdfs_by_creation_time [⟨"c.txt", 1, [9], true⟩] "combined_report.pdf" 9 false =
      Except.ok ⟨false, [], [], [], [⟨"c.txt", 1, [9], true⟩]⟩ :=
  ⟨by decide, c6_merge_noop_when_no_pdfs _ "combined_report.pdf" 9 false (by decide)⟩

/-- C8: the merge operation writes exactly one new file — the output file at
the configured name, holding the merged content, overwriting any
pre-existing file of that name without error — and neither deletes nor
modifies any source PDF: every other entry survives unchanged and nothing
else appears. -/
theorem c8_merge_frame (dir : Dir) (ofn : String) (now : Nat)
    (hne : dir.filter (fun f => isPdfName f.name) ≠ []) :
    ∃ mr, merge_pdfs_by_creation_time dir ofn now true = Except.ok mr ∧
      mr.wrote = true ∧
      (∃ g ∈ mr.newDir, g.name = ofn ∧ g.content = mr.outputContent) ∧
      (∀ f ∈ dir, f.name ≠ ofn → f ∈ mr.newDir) ∧
      (∀ g ∈ mr.newDir, g.name = ofn ∨ g ∈ dir) := by
  have hne2 : pdf_files dir ≠ [] := fun h => hne (pdf_files_eq_nil_iff.mp h)
  refine ⟨_, merge_eq_of_nonempty ofn now hne2, rfl, ?_, ?_, ?_⟩
  · exact ⟨_, self_mem_writeEntry dir _, rfl, rfl⟩
  · intro f hf hfn
    exact mem_writeEntry_of_ne hf hfn
  · intro g hg
    rcases mem_writeEntry hg with h1 | h1
    · left
      rw [h1]
    · exact Or.inr h1

/-- Witness for C8: the directory already contains a file with the output
name; the merge overwrites it and keeps the other entry. -/
theorem c8_witness :
    (([⟨"page_1.pdf", 3, [0], true⟩, ⟨"combined_report.pdf", 4, [7], true⟩] : Dir).filter
        (fun f => isPdfName f.name) ≠ []) ∧
    ∃ mr, merge_pdfs_by_creation_time
        [⟨"page_1.pdf", 3, [0], true⟩, ⟨"combined_report.pdf", 4, [7], true⟩]
        "combined_report.pdf" 9 true = Except.ok mr ∧
      mr.wrote = true ∧
      (∃ g ∈ mr.newDir, g.name = "combined_report.pdf" ∧ g.content = mr.outputContent) ∧
      (∀ f ∈ ([⟨"page_1.pdf", 3, [0], true⟩, ⟨"combined_report.pdf", 4, [7], true⟩] : Dir),
        f.name ≠ "combined_report.pdf" → f ∈ mr.newDir) ∧
      (∀ g ∈ mr.newDir, g.name = "combined_report.pdf" ∨
        g ∈ ([⟨"page_1.pdf", 3, [0], true⟩, ⟨"combined_report.pdf", 4, [7], true⟩] : Dir)) :=
  ⟨by decide, c8_merge_frame _ "combined_report.pdf" 9 (by decide)⟩

/-- C9: a pre-existing file whose name equals the configured merged output
filename (and hence matches `*.pdf`) is discovered by the scan and included
among the merge inputs — input discovery has no exclusion for the output
name. -/
theorem c9_preexisting_output_is_input (dir : Dir) (ofn : String) (now : Nat)
    (f : FileEntry) (hf : f ∈ dir) (hn : f.name = ofn)
    (hpdf : isPdfName f.name = true) :
    ∃ mr, merge_pdfs_by_creation_time dir ofn now true = Except.ok mr ∧
      f ∈ mr.inputs ∧ mr.wrote = true := by
  have hmem : f ∈ pdf_files dir := mem_pdf_files.mpr ⟨hf, hpdf⟩
  have hne : pdf_files dir ≠ [] := by
    intro h
    rw [h] at hmem
    exact absurd hmem (List.not_mem_nil f)
  exact ⟨_, merge_eq_of_nonempty ofn now hne, hmem, rfl⟩

/-- Witness for C9: a leftover `combined_report.pdf` is matched and fed back
into the merge as an input. -/
theorem c9_witness :
    (⟨"combined_report.pdf", 4, [7], true⟩ : FileEntry) ∈
      ([⟨"page_1.pdf", 3, [0], true⟩, ⟨"combined_report.pdf", 4, [7], true⟩] : Dir) ∧
    (⟨"combined_report.pdf", 4, [7], true⟩ : FileEntry).name = "combined_report.pdf" ∧
    isPdfName (⟨"combined_report.pdf", 4, [7], true⟩ : FileEntry).name = true ∧
    ∃ mr, merge_pdfs_by_creation_time
        [⟨"page_1.pdf", 3, [0], true⟩, ⟨"combined_report.pdf", 4, [7], true⟩]
        "combined_report.pdf" 9 true = Except.ok mr ∧
      (⟨"combined_report.pdf", 4, [7], true⟩ : FileEntry) ∈ mr.inputs ∧ mr.wrote = true :=
  ⟨by decide, rfl, by decide,
   c9_preexisting_output_is_input _ "combined_report.pdf" 9 _ (by decide) rfl (by decide)⟩

/-! ## Claims about the driver and the process exit status -/

/-- C1 counterexample: a run in which `DOWNLOAD_DIRECTORY.mkdir` fails.
`mkdir` is not under any `try`, so the exception escapes `asyncio.run` and
the process exits with status 1, not 0 — refuting the claim that every run
(including ones where directory creation fails) exits with status zero. -/
theorem c1_counterexample :
    Script.run
      { urls := URLS_TO_DOWNLOAD, dir0 := [], mkdirOk := false,
        fetchOk := fun _ => true, appendOkF := fun _ => true,
        mergeWriteOk := true, baseTime := 0 } = 1 := rfl

/-- C1 (amended): per-URL fetch failures and per-file merge-append failures
are caught and never alter the exit status — provided directory creation
and the merged-output write succeed, the run exits zero for every
combination of fetch and append outcomes; a directory-creation failure,
however, escapes uncaught and the process exits with status 1. -/
theorem c1_amended_exit_status (env : Env) :
    (env.mkdirOk = true → env.mergeWriteOk = true → Script.run env = 0) ∧
    (env.mkdirOk = false → Script.run env = 1) := by
  constructor
  · intro hm hw
    obtain ⟨r, hr, -, -, -, -, -, -⟩ := main_spec env hm hw
    unfold Script.run
    rw [hr]
  · intro hm
    unfold Script.run Script.main
    rw [hm]
    rfl

/-- Witness for C1 (amended): a run with a failing fetch and a failing
append still exits 0; a run with a failing `mkdir` exits 1. -/
theorem c1_amended_witness :
    Script.run
      { urls := URLS_TO_DOWNLOAD, dir0 := [], mkdirOk := true,
        fetchOk := fun i => i != 1, appendOkF := fun i => i != 0,
        mergeWriteOk := true, baseTime := 0 } = 0 ∧
    Script.run
      { urls := URLS_TO_DOWNLOAD, dir0 := [], mkdirOk := false,
        fetchOk := fun _ => true, appendOkF := fun _ => true,
        mergeWriteOk := true, baseTime := 0 } = 1 :=
  ⟨(c1_amended_exit_status _).1 rfl rfl, (c1_amended_exit_status _).2 rfl⟩

/-- C3: after all targets are attempted, the driver merges iff two or more
fetches succeeded; with exactly one success it reports that single file
(name in the summary, no merge); with zero successes it prints
"No files were successfully downloaded." and the directory is untouched (no
merged file is written). -/
theorem c3_merge_decision (env : Env) (hm : env.mkdirOk = true)
    (hw : env.mergeWriteOk = true) :
    ∃ r, Script.main env = Except.ok r ∧
      (r.mergeInvoked = true ↔ 2 ≤ countSucc env) ∧
      (countSucc env = 1 →
        r.mergeInvoked = false ∧
        ∃ i, i < env.urls.length ∧ env.fetchOk i = true ∧
          r.downloaded = [page_filename i] ∧
          r.summary = "Only one PDF was downloaded. No merging required: " ++
            page_filename i) ∧
      (countSucc env = 0 →
        r.mergeInvoked = false ∧
        r.summary = "No files were successfully downloaded." ∧
        r.finalDir = env.dir0) := by
  obtain ⟨r, hr, hdl, hiff, hmerge, hle, h1, h0⟩ := main_spec env hm hw
  have hmf : countSucc env ≤ 1 → r.mergeInvoked = false := by
    intro hcle
    cases hx : r.mergeInvoked with
    | false => rfl
    | true => exact absurd (hiff.mp hx) (by omega)
  refine ⟨r, hr, hiff, ?_, ?_⟩
  · intro hc1
    have hL : ((List.range env.urls.length).filter env.fetchOk).length = 1 := hc1
    obtain ⟨i, hi⟩ := List.length_eq_one.mp hL
    have him : i ∈ (List.range env.urls.length).filter env.fetchOk := by
      rw [hi]
      exact List.mem_singleton_self i
    have h2 := List.mem_filter.mp him
    refine ⟨hmf (by omega), i, List.mem_range.mp h2.1, h2.2, ?_, ?_⟩
    · rw [hdl, fetchLoop_snd, hi]
      rfl
    · rw [h1 hc1, fetchLoop_snd, hi]
      rfl
  · intro hc0
    have hnil : (List.range env.urls.length).filter env.fetchOk = [] :=
      List.length_eq_zero.mp hc0
    have hall : ∀ i ∈ List.range env.urls.length, env.fetchOk i = false := by
      intro i hi
      have hne := List.filter_eq_nil_iff.mp hnil i hi
      cases hx : env.fetchOk i with
      | false => rfl
      | true => exact absurd hx hne
    refine ⟨hmf (by omega), h0 hc0, ?_⟩
    rw [hle (by omega)]
    show (fetchLoop env).1 = env.dir0
    unfold fetchLoop
    rw [foldl_fetchStep_none env _ env.dir0 [] hall]

/-- Witness for C3 at a concrete three-target run in which exactly one fetch
succeeds (and the directory starts with leftovers that stay untouched). -/
theorem c3_witness :
    ({ urls := URLS_TO_DOWNLOAD, dir0 := [⟨"old.pdf", 1, [9], true⟩], mkdirOk := true,
       fetchOk := fun i => i == 2, appendOkF := fun _ => true,
       mergeWriteOk := true, baseTime := 10 } : Env).mkdirOk = true ∧
    ({ urls := URLS_TO_DOWNLOAD, dir0 := [⟨"old.pdf", 1, [9], true⟩], mkdirOk := true,
       fetchOk := fun i => i == 2, appendOkF := fun _ => true,
       mergeWriteOk := true, baseTime := 10 } : Env).mergeWriteOk = true ∧
    ∃ r, Script.main
        { urls := URLS_TO_DOWNLOAD, dir0 := [⟨"old.pdf", 1, [9], true⟩], mkdirOk := true,
          fetchOk := fun i => i == 2, appendOkF := fun _ => true,
          mergeWriteOk := true, baseTime := 10 } = Except.ok r ∧
      (r.mergeInvoked = true ↔ 2 ≤ countSucc
        { urls := URLS_TO_DOWNLOAD, dir0 := [⟨"old.pdf", 1, [9], true⟩], mkdirOk := true,
          fetchOk := fun i => i == 2, appendOkF := fun _ => true,
          mergeWriteOk := true, baseTime := 10 }) ∧
      (countSucc
          { urls := URLS_TO_DOWNLOAD, dir0 := [⟨"old.pdf", 1, [9], true⟩], mkdirOk := true,
            fetchOk := fun i => i == 2, appendOkF := fun _ => true,
            mergeWriteOk := true, baseTime := 10 } = 1 →
        r.mergeInvoked = false ∧
        ∃ i, i < URLS_TO_DOWNLOAD.length ∧
          (fun i : Nat => i == 2) i = true ∧
          r.downloaded = [page_filename i] ∧
          r.summary = "Only one PDF was downloaded. No merging required: " ++
            page_filename i) ∧
      (countSucc
          { urls := URLS_TO_DOWNLOAD, dir0 := [⟨"old.pdf", 1, [9], true⟩], mkdirOk := true,
            fetchOk := fun i => i == 2, appendOkF := fun _ => true,
            mergeWriteOk := true, baseTime := 10 } = 0 →
        r.mergeInvoked = false ∧
        r.summary = "No files were successfully downloaded." ∧
        r.finalDir = [⟨"old.pdf", 1, [9], true⟩]) :=
  ⟨rfl, rfl, c3_merge_decision _ rfl rfl⟩

/-- C10: the driver's decision to merge depends only on how many fetches
succeeded in the current run — two runs with the same target count and the
same fetch outcomes make the same decision whatever either directory
already holds — and with at most one success no merge happens even if the
directory already holds two or more PDFs. -/
theorem c10_merge_decision_ignores_directory (env env2 : Env)
    (hm : env.mkdirOk = true) (hm2 : env2.mkdirOk = true)
    (hw : env.mergeWriteOk = true) (hw2 : env2.mergeWriteOk = true)
    (hu : env.urls.length = env2.urls.length)
    (hf : ∀ i, env.fetchOk i = env2.fetchOk i) :
    ∃ r r2, Script.main env = Except.ok r ∧ Script.main env2 = Except.ok r2 ∧
      r.mergeInvoked = r2.mergeInvoked ∧
      (countSucc env ≤ 1 → r.mergeInvoked = false) := by
  have hcs : countSucc env = countSucc env2 := by
    unfold countSucc
    rw [hu]
    exact congrArg List.length (List.filter_congr (fun i _ => hf i))
  obtain ⟨r, hr, -, hiff, -, -, -, -⟩ := main_spec env hm hw
  obtain ⟨r2, hr2, -, hiff2, -, -, -, -⟩ := main_spec env2 hm2 hw2
  refine ⟨r, r2, hr, hr2, ?_, ?_⟩
  · by_cases hb : 1 < countSucc env
    · rw [hiff.mpr hb, hiff2.mpr (hcs ▸ hb)]
    · have b1 : r.mergeInvoked = false := by
        cases hx : r.mergeInvoked with
        | false => rfl
        | true => exact absurd (hiff.mp hx) hb
      have b2 : r2.mergeInvoked = false := by
        cases hx : r2.mergeInvoked with
        | false => rfl
        | true => exact absurd (hiff2.mp hx) (hcs ▸ hb)
      rw [b1, b2]
  · intro hle
    cases hx : r.mergeInvoked with
    | false => rfl
    | true => exact absurd (hiff.mp hx) (by omega)

/-- Witness for C10: same single-success fetch outcomes over two runs, one
into an empty directory and one into a directory already holding two PDFs;
neither run merges. -/
theorem c10_witness :
    ∃ r r2, Script.main
        { urls := URLS_TO_DOWNLOAD, dir0 := [], mkdirOk := true,
          fetchOk := fun i => i == 0, appendOkF := fun _ => true,
          mergeWriteOk := true, baseTime := 10 } = Except.ok r ∧
      Script.main
        { urls := URLS_TO_DOWNLOAD,
          dir0 := [⟨"old1.pdf", 1, [8], true⟩, ⟨"old2.pdf", 2, [9], true⟩],
          mkdirOk := true, fetchOk := fun i => i == 0, appendOkF := fun _ => true,
          mergeWriteOk := true, baseTime := 10 } = Except.ok r2 ∧
      r.mergeInvoked = r2.mergeInvoked ∧
      (countSucc
          { urls := URLS_TO_DOWNLOAD, dir0 := [], mkdirOk := true,
            fetchOk := fun i => i == 0, appendOkF := fun _ => true,
            mergeWriteOk := true, baseTime := 10 } ≤ 1 →
        r.mergeInvoked = false) :=
  c10_merge_decision_ignores_directory _ _ rfl rfl rfl rfl rfl (fun _ => rfl)

lemma fresh_of_filter_nil {d : Dir} (h : d.filter (fun f => isPdfName f.name) = []) :
    ∀ f ∈ d, isPdfName f.name = false := by
  intro f hfm
  have hne := List.filter_eq_nil_iff.mp h f hfm
  cases hx : isPdfName f.name with
  | false => rfl
  | true => exact absurd hx hne

/-- C4: if the fetch at index `k` fails while every other fetch succeeds
(and at least two targets remain), the driver catches the failure, keeps
attempting every other target, excludes `page_{k+1}.pdf` from the
successful-download list, and the merged file contains exactly the pages of
the succeeding targets and no page for index `k` (run into a directory with
no pre-existing PDFs). -/
theorem c4_failed_target_dropped (env : Env) (k : Nat)
    (hm : env.mkdirOk = true) (hw : env.mergeWriteOk = true)
    (hfresh : env.dir0.filter (fun f => isPdfName f.name) = [])
    (hk : k < env.urls.length)
    (hf : ∀ i, env.fetchOk i = !(i == k))
    (happ : ∀ i, env.appendOkF i = true)
    (hn : 2 ≤ countSucc env) :
    ∃ r, Script.main env = Except.ok r ∧
      r.mergeInvoked = true ∧
      page_filename k ∉ r.downloaded ∧
      (∀ i, i < env.urls.length → i ≠ k → page_filename i ∈ r.downloaded) ∧
      ∃ g ∈ r.finalDir, g.name = MERGED_FILENAME ∧
        ∀ p, p ∈ g.content ↔ (p < env.urls.length ∧ p ≠ k) := by
  obtain ⟨r, hr, hdl, hiff, hmerge, -, -, -⟩ := main_spec env hm hw
  obtain ⟨mr, hmr, hfd⟩ := hmerge (by omega)
  have hfresh2 := fresh_of_filter_nil hfresh
  have hdir1 := fetchLoop_fst env hfresh2
  have hfil : ((fetchLoop env).1).filter (fun f => isPdfName f.name) =
      ((List.range env.urls.length).filter env.fetchOk).map (fetchedEntry env) := by
    rw [hdir1, List.filter_append, hfresh, List.nil_append]
    apply List.filter_eq_self.mpr
    intro f hfm
    obtain ⟨i, hiL, hfi⟩ := List.mem_map.mp hfm
    rw [← hfi]
    exact isPdfName_page_filename i
  have hLne : (List.range env.urls.length).filter env.fetchOk ≠ [] := by
    intro h
    have h2 : countSucc env = 0 := by
      unfold countSucc
      rw [h]
      rfl
    omega
  have hpne : pdf_files (fetchLoop env).1 ≠ [] := by
    intro h
    have h2 := pdf_files_eq_nil_iff.mp h
    rw [hfil] at h2
    exact hLne (List.map_eq_nil_iff.mp h2)
  have hshape :=
    merge_eq_of_nonempty MERGED_FILENAME (env.baseTime + env.urls.length) hpne
  rw [hshape] at hmr
  injection hmr with hmrv
  subst hmrv
  have hallOk : (pdf_files (fetchLoop env).1).filter (fun f => f.appendOk) =
      pdf_files (fetchLoop env).1 := by
    apply List.filter_eq_self.mpr
    intro f hfm
    have h2 := mem_pdf_files.mp hfm
    have h1 := h2.1
    rw [hdir1] at h1
    rcases List.mem_append.mp h1 with hin | hin
    · have hcontra := hfresh2 f hin
      rw [h2.2] at hcontra
      simp at hcontra
    · obtain ⟨i, hiL, hfi⟩ := List.mem_map.mp hin
      rw [← hfi]
      exact happ i
  have hmemfiles : ∀ f, f ∈ pdf_files (fetchLoop env).1 ↔
      f ∈ ((List.range env.urls.length).filter env.fetchOk).map (fetchedEntry env) := by
    intro f
    rw [mem_pdf_files]
    constructor
    · rintro ⟨hfd1, hfp⟩
      rw [hdir1] at hfd1
      rcases List.mem_append.mp hfd1 with hin | hin
      · have hcontra := hfresh2 f hin
        rw [hfp] at hcontra
        simp at hcontra
      · exact hin
    · intro hin
      refine ⟨by rw [hdir1]; exact List.mem_append_right _ hin, ?_⟩
      obtain ⟨i, hiL, hfi⟩ := List.mem_map.mp hin
      rw [← hfi]
      exact isPdfName_page_filename i
  have hout : (appendLoop (pdf_files (fetchLoop env).1)).1 =
      concatContents (pdf_files (fetchLoop env).1) := by
    rw [appendLoop_eq, hallOk]
  refine ⟨r, hr, hiff.mpr (by omega), ?_, ?_, ?_⟩
  · rw [hdl, fetchLoop_snd]
    intro hmem
    obtain ⟨j, hjL, hje⟩ := List.mem_map.mp hmem
    have hjk := page_filename_injective hje
    subst hjk
    have h2 := (List.mem_filter.mp hjL).2
    rw [hf j] at h2
    simp at h2
  · intro i hi hik
    rw [hdl, fetchLoop_snd]
    apply List.mem_map_of_mem
    apply List.mem_filter.mpr
    refine ⟨List.mem_range.mpr hi, ?_⟩
    rw [hf i]
    simp [hik]
  · refine ⟨⟨MERGED_FILENAME, env.baseTime + env.urls.length,
      (appendLoop (pdf_files (fetchLoop env).1)).1, true⟩, ?_, rfl, ?_⟩
    · rw [hfd]
      exact self_mem_writeEntry _ _
    · intro p
      show p ∈ (appendLoop (pdf_files (fetchLoop env).1)).1 ↔ _
      rw [hout, mem_concatContents]
      constructor
      · rintro ⟨f, hff, hp⟩
        obtain ⟨i, hiL, hfi⟩ := List.mem_map.mp ((hmemfiles f).mp hff)
        rw [← hfi] at hp
        have hpi : p = i := List.mem_singleton.mp hp
        subst hpi
        have h2 := List.mem_filter.mp hiL
        refine ⟨List.mem_range.mp h2.1, ?_⟩
        intro hpk
        have h3 := h2.2
        rw [hf p, hpk] at h3
        simp at h3
      · rintro ⟨hp1, hp2⟩
        refine ⟨fetchedEntry env p, ?_, List.mem_singleton_self p⟩
        apply (hmemfiles _).mpr
        apply List.mem_map_of_mem
        apply List.mem_filter.mpr
        refine ⟨List.mem_range.mpr hp1, ?_⟩
        rw [hf p]
        simp [hp2]

/-- Witness for C4: three configured targets, the middle fetch fails; the
merged file holds pages 0 and 2 and no page 1. -/
theorem c4_witness :
    1 < URLS_TO_DOWNLOAD.length ∧
    2 ≤ countSucc
      { urls := URLS_TO_DOWNLOAD, dir0 := [], mkdirOk := true,
        fetchOk := fun i => !(i == 1), appendOkF := fun _ => true,
        mergeWriteOk := true, baseTime := 10 } ∧
    ∃ r, Script.main
        { urls := URLS_TO_DOWNLOAD, dir0 := [], mkdirOk := true,
          fetchOk := fun i => !(i == 1), appendOkF := fun _ => true,
          mergeWriteOk := true, baseTime := 10 } = Except.ok r ∧
      r.mergeInvoked = true ∧
      page_filename 1 ∉ r.downloaded ∧
      (∀ i, i < URLS_TO_DOWNLOAD.length → i ≠ 1 → page_filename i ∈ r.downloaded) ∧
      ∃ g ∈ r.finalDir, g.name = MERGED_FILENAME ∧
        ∀ p, p ∈ g.content ↔ (p < URLS_TO_DOWNLOAD.length ∧ p ≠ 1) :=
  ⟨by decide, by decide,
   c4_failed_target_dropped
     { urls := URLS_TO_DOWNLOAD, dir0 := [], mkdirOk := true,
       fetchOk := fun i => !(i == 1), appendOkF := fun _ => true,
       mergeWriteOk := true, baseTime := 10 }
     1 rfl rfl rfl (by decide) (fun _ => rfl) (fun _ => rfl) (by decide)⟩

/-- C7: the driver derives the fetch destination for the target at 0-based
index `i` as `DOWNLOAD_DIRECTORY / page_{i+1}.pdf` (1-based index in the
name), and the merged document, when produced, is written at
`DOWNLOAD_DIRECTORY / MERGED_FILENAME` (stated for a run with all fetches
succeeding into a directory without pre-existing PDFs). -/
theorem c7_derived_paths (env : Env)
    (hm : env.mkdirOk = true) (hw : env.mergeWriteOk = true)
    (hfresh : env.dir0.filter (fun f => isPdfName f.name) = [])
    (hf : ∀ i, env.fetchOk i = true)
    (hn : 2 ≤ env.urls.length) :
    ∃ r, Script.main env = Except.ok r ∧
      r.downloaded = (List.range env.urls.length).map page_filename ∧
      (∀ i, i < env.urls.length →
        fetchedEntry env i ∈ r.finalDir ∧
        (fetchedEntry env i).name = "page_" ++ natToDec (i + 1) ++ ".pdf" ∧
        page_filepath i = DOWNLOAD_DIRECTORY ++ "/" ++ page_filename i) ∧
      (∃ g ∈ r.finalDir, g.name = MERGED_FILENAME) ∧
      output_path DOWNLOAD_DIRECTORY MERGED_FILENAME =
        DOWNLOAD_DIRECTORY ++ "/" ++ MERGED_FILENAME := by
  obtain ⟨r, hr, hdl, hiff, hmerge, -, -, -⟩ := main_spec env hm hw
  have hLeq : (List.range env.urls.length).filter env.fetchOk =
      List.range env.urls.length :=
    List.filter_eq_self.mpr (fun i _ => hf i)
  have hcs : countSucc env = env.urls.length := by
    unfold countSucc
    rw [hLeq, List.length_range]
  obtain ⟨mr, hmr, hfd⟩ := hmerge (by omega)
  have hfresh2 := fresh_of_filter_nil hfresh
  have hdir1 := fetchLoop_fst env hfresh2
  rw [hLeq] at hdir1
  have hfil : ((fetchLoop env).1).filter (fun f => isPdfName f.name) =
      (List.range env.urls.length).map (fetchedEntry env) := by
    rw [hdir1, List.filter_append, hfresh, List.nil_append]
    apply List.filter_eq_self.mpr
    intro f hfm
    obtain ⟨i, hiL, hfi⟩ := List.mem_map.mp hfm
    rw [← hfi]
    exact isPdfName_page_filename i
  have hpne : pdf_files (fetchLoop env).1 ≠ [] := by
    intro h
    have h2 := pdf_files_eq_nil_iff.mp h
    rw [hfil] at h2
    have h3 := List.map_eq_nil_iff.mp h2
    have h4 := congrArg List.length h3
    rw [List.length_range] at h4
    simp only [List.length_nil] at h4
    omega
  have hshape :=
    merge_eq_of_nonempty MERGED_FILENAME (env.baseTime + env.urls.length) hpne
  rw [hshape] at hmr
  injection hmr with hmrv
  subst hmrv
  refine ⟨r, hr, ?_, ?_, ?_, rfl⟩
  · rw [hdl, fetchLoop_snd, hLeq]
  · intro i hi
    refine ⟨?_, rfl, rfl⟩
    rw [hfd]
    apply mem_writeEntry_of_ne
    · rw [hdir1]
      exact List.mem_append_right _ (List.mem_map_of_mem _ (List.mem_range.mpr hi))
    · show page_filename i ≠ MERGED_FILENAME
      exact page_filename_ne_merged i
  · refine ⟨⟨MERGED_FILENAME, env.baseTime + env.urls.length,
      (appendLoop (pdf_files (fetchLoop env).1)).1, true⟩, ?_, rfl⟩
    rw [hfd]
    exact self_mem_writeEntry _ _

/-- Witness for C7: the three configured targets all fetch successfully into
an empty directory. -/
theorem c7_witness :
    2 ≤ URLS_TO_DOWNLOAD.length ∧
    ∃ r, Script.main
        { urls := URLS_TO_DOWNLOAD, dir0 := [], mkdirOk := true,
          fetchOk := fun _ => true, appendOkF := fun _ => true,
          mergeWriteOk := true, baseTime := 10 } = Except.ok r ∧
      r.downloaded = (List.range URLS_TO_DOWNLOAD.length).map page_filename ∧
      (∀ i, i < URLS_TO_DOWNLOAD.length →
        fetchedEntry
          { urls := URLS_TO_DOWNLOAD, dir0 := [], mkdirOk := true,
            fetchOk := fun _ => true, appendOkF := fun _ => true,
            mergeWriteOk := true, baseTime := 10 } i ∈ r.finalDir ∧
        (fetchedEntry
          { urls := URLS_TO_DOWNLOAD, dir0 := [], mkdirOk := true,
            fetchOk := fun _ => true, appendOkF := fun _ => true,
            mergeWriteOk := true, baseTime := 10 } i).name =
          "page_" ++ natToDec (i + 1) ++ ".pdf" ∧
        page_filepath i = DOWNLOAD_DIRECTORY ++ "/" ++ page_filename i) ∧
      (∃ g ∈ r.finalDir, g.name = MERGED_FILENAME) ∧
      output_path DOWNLOAD_DIRECTORY MERGED_FILENAME =
        DOWNLOAD_DIRECTORY ++ "/" ++ MERGED_FILENAME :=
  ⟨by decide,
   c7_derived_paths
     { urls := URLS_TO_DOWNLOAD, dir0 := [], mkdirOk := true,
       fetchOk := fun _ => true, appendOkF := fun _ => true,
       mergeWriteOk := true, baseTime := 10 }
     rfl rfl rfl (fun _ => rfl) (by decide)⟩
